import Mathlib

/-!
Verification development for the AsyncQueue bounded-concurrency task runner
(src/AsyncQueue.js). The per-task retry helper is embedded as a pure,
fuel-indexed loop over an explicit millisecond clock; the concurrent
dispatch chains of the queue are embedded as a small-step relation on a
queue state, so that properties quantify over every completion order.
-/

/-- A JavaScript value as far as the error paths of the source observe it:
null, an Error instance carrying a message, or any other value together
with its String conversion. -/
inductive JSVal where
  | null : JSVal
  | errObj (msg : String) : JSVal
  | strVal (s : String) : JSVal
deriving DecidableEq

/-- String conversion applied by the source when it wraps a non-Error
thrown value into an Error. -/
def jsToString : JSVal → String
  | .null => "null"
  | .errObj m => "Error: " ++ m
  | .strVal s => s

/-- Line 35 / line 111 of AsyncQueue.js:
theError instanceof Error ? theError : new Error(String(theError)). -/
def normalizeError : JSVal → JSVal
  | .errObj m => .errObj m
  | v => .errObj (jsToString v)

/-- Result record for one task, as delivered in the result array:
status success with a value, or status captured with an error. -/
inductive Outcome (α : Type) where
  | success (value : α) : Outcome α
  | captured (error : JSVal) : Outcome α
deriving DecidableEq

/-- What runTaskWithRetry hands to its caller: either a returned outcome
record, or a thrown value (the cancellation throw on line 13). -/
inductive RetryResult (α : Type) where
  | returned (o : Outcome α) : RetryResult α
  | thrown (e : JSVal) : RetryResult α
deriving DecidableEq

/-- Behaviour of one task function: the i-th invocation either produces a
value or fails with a thrown value, and takes a given number of
milliseconds. -/
structure TaskBehavior (α : Type) where
  result : Nat → Except JSVal α
  dur : Nat → Nat

/-- Observable trace of one runTaskWithRetry call: the value it settles
with (none when the call never settles), how many times it invoked the
task function, and the clock value when it settled. -/
structure RetryTrace (α : Type) where
  outcome : Option (RetryResult α)
  invocations : Nat
  endTime : Nat
deriving DecidableEq

/-- Whether the abort signal (fired at the given time, if ever) reads as
aborted at clock value t. -/
def abortedAt (abortTime : Option Nat) (t : Nat) : Bool :=
  match abortTime with
  | some ta => decide (ta ≤ t)
  | none => false

/-- Whether the abort signal fires strictly inside a backoff wait that
starts at clock value t and lasts w milliseconds. In the source (lines
25-29) the abort listener then clears the timer without resolving the
wait promise, so the wait never settles. -/
def abortDuringWait (abortTime : Option Nat) (t w : Nat) : Bool :=
  match abortTime with
  | some ta => decide (¬ ta ≤ t ∧ ta < t + w)
  | none => false

/-- The retry loop of runTaskWithRetry (lines 10-32), one fuel unit per
remaining loop iteration. The fuel supplied by runTaskWithRetry is
exactly the number of iterations of the source loop, so the fuel-0 case
and the guard failure case both coincide with the exit of the source
loop, returning captured(normalizeError theError) as on lines 35-36. A
backoff wait whose window contains the abort instant never settles,
which the trace records as outcome none. -/
def retryLoop {α : Type} (tb : TaskBehavior α) (retries : Int) (abortTime : Option Nat) :
    Nat → Nat → Nat → JSVal → RetryTrace α
  | 0, _, t, theError =>
    { outcome := some (.returned (.captured (normalizeError theError)))
      invocations := 0
      endTime := t }
  | fuel + 1, attempt, t, theError =>
    if (attempt : Int) ≤ retries then
      if abortedAt abortTime t then
        { outcome := some (.thrown (.errObj "Task cancelled"))
          invocations := 0
          endTime := t }
      else
        match tb.result attempt with
        | .ok v =>
          { outcome := some (.returned (.success v))
            invocations := 1
            endTime := t + tb.dur attempt }
        | .error e =>
          if (attempt : Int) < retries && !abortedAt abortTime (t + tb.dur attempt) then
            if abortDuringWait abortTime (t + tb.dur attempt) (100 * (attempt + 1)) then
              { outcome := none, invocations := 1, endTime := t + tb.dur attempt }
            else
              let r := retryLoop tb retries abortTime fuel (attempt + 1)
                (t + tb.dur attempt + 100 * (attempt + 1)) e
              { outcome := r.outcome, invocations := r.invocations + 1, endTime := r.endTime }
          else
            let r := retryLoop tb retries abortTime fuel (attempt + 1) (t + tb.dur attempt) e
            { outcome := r.outcome, invocations := r.invocations + 1, endTime := r.endTime }
    else
      { outcome := some (.returned (.captured (normalizeError theError)))
        invocations := 0
        endTime := t }

/-- runTaskWithRetry (lines 7-37), started at clock value t0 against a
signal that fires at abortTime. theError starts as null (line 8). -/
def runTaskWithRetry {α : Type} (tb : TaskBehavior α) (howManyRetries : Int)
    (abortTime : Option Nat) (t0 : Nat) : RetryTrace α :=
  retryLoop tb howManyRetries abortTime (howManyRetries + 1).toNat 0 t0 .null

/-- Total time spent on the m failing attempts starting at attempt a:
each costs its own duration plus the backoff wait of 100 * (attempt + 1)
milliseconds. -/
def backoffTotal {α : Type} (tb : TaskBehavior α) : Nat → Nat → Nat
  | _, 0 => 0
  | a, m + 1 => tb.dur a + 100 * (a + 1) + backoffTotal tb (a + 1) m

/-- The AsyncQueue instance fields set up by the constructor
(lines 40-56). The per-run scheduling state is modelled separately by
QState; the abortController field is null until a run creates one. -/
structure AsyncQueue where
  maxAtSameTime : Rat
  retryAttempts : Int
  abortController : Option Bool
  runningCount : Nat
  nextTaskIndex : Nat
  finishedCount : Nat
deriving DecidableEq

/-- Number.isInteger for a (finite) JavaScript number modelled as a
rational. -/
def jsNumberIsInteger (q : Rat) : Bool := q.den == 1

/-- The constructor (lines 40-56): rejects a concurrency below one or a
non-integer concurrency, otherwise stores the fields; retryAttempts is
not validated. -/
def mkAsyncQueue (maxAtSameTime : Rat) (retryAttempts : Int) : Except String AsyncQueue :=
  if maxAtSameTime < 1 ∨ jsNumberIsInteger maxAtSameTime = false then
    .error "Concurrency must be a positive whole number"
  else
    .ok { maxAtSameTime := maxAtSameTime
          retryAttempts := retryAttempts
          abortController := none
          runningCount := 0
          nextTaskIndex := 0
          finishedCount := 0 }

/-- cancelAll (lines 136-140): aborts the current controller when one
exists, otherwise does nothing. -/
def cancelAll (q : AsyncQueue) : AsyncQueue :=
  match q.abortController with
  | none => q
  | some _ => { q with abortController := some true }

/-- The fixed message of the error used to fill unset result slots on a
cancelled run (line 127). -/
def cancelMessage : String := "Task cancelled via cancelAll()"

/-- Per-run scheduling state of a run call (lines 62-86): the task list,
the results array (none models a null slot), the claim cursor, the
running and finished counters, the ghost list of claimed-but-unfinished
indices, the abort flag of the run controller, and the value the run
promise has resolved with, if any. -/
structure QState (α : Type) where
  tasks : List (TaskBehavior α)
  results : List (Option (Outcome α))
  nextTaskIndex : Nat
  runningCount : Nat
  finishedCount : Nat
  inFlight : List Nat
  aborted : Bool
  resolvedWith : Option (List (Option (Outcome α)))

/-- Line 128-130: replace every null result slot by a captured record
carrying the fixed cancellation error. -/
def fillCancelled {α : Type} (rs : List (Option (Outcome α))) : List (Option (Outcome α)) :=
  rs.map fun res =>
    match res with
    | none => some (.captured (.errObj cancelMessage))
    | some r => some r

/-- checkCompletion (lines 122-134): when no worker is running, fill the
remaining slots if the run was cancelled and resolve the run promise.
Resolving an already-resolved promise is a no-op. -/
def checkCompletion {α : Type} (s : QState α) : QState α :=
  if s.runningCount = 0 then
    let newResults := if s.aborted then fillCancelled s.results else s.results
    { s with
      results := newResults
      resolvedWith :=
        match s.resolvedWith with
        | none => some newResults
        | some r => some r }
  else s

/-- The synchronous part of a processNext call (lines 88-97): either the
cursor is exhausted or the run is cancelled and the chain terminates
through checkCompletion, or the chain claims the next index and starts
running it. -/
def processNext {α : Type} (s : QState α) : QState α :=
  if s.tasks.length ≤ s.nextTaskIndex ∨ s.aborted then
    checkCompletion s
  else
    { s with
      nextTaskIndex := s.nextTaskIndex + 1
      runningCount := s.runningCount + 1
      inFlight := s.inFlight ++ [s.nextTaskIndex] }

/-- The continuation that runs when the awaited runTaskWithRetry call of
the chain holding index i settles (lines 106-119): write the outcome
into slot i, decrement the running counter, increment the finished
counter, and immediately run processNext again. All of this is one
uninterrupted microtask in the source. -/
def finishStep {α : Type} (s : QState α) (i : Nat) (r : Outcome α) : QState α :=
  processNext
    { s with
      results := s.results.set i (some r)
      runningCount := s.runningCount - 1
      finishedCount := s.finishedCount + 1
      inFlight := s.inFlight.erase i }

/-- The initial for-loop of run (lines 81-84), issuing k synchronous
processNext calls. -/
def startChains {α : Type} : QState α → Nat → QState α
  | s, 0 => s
  | s, k + 1 => startChains (processNext s) k

/-- The state right after the synchronous part of run(tasks)
(lines 62-86): fresh counters and a fresh non-aborted controller; an
empty task list resolves at once with the empty array, otherwise
min(concurrency, tasks.length) dispatch chains are started, each of
which synchronously claims one index. -/
def initState {α : Type} (tasks : List (TaskBehavior α)) (C : Nat) : QState α :=
  let base : QState α :=
    { tasks := tasks
      results := List.replicate tasks.length none
      nextTaskIndex := 0
      runningCount := 0
      finishedCount := 0
      inFlight := []
      aborted := false
      resolvedWith := none }
  if tasks.length = 0 then { base with resolvedWith := some [] }
  else startChains base (min C tasks.length)

/-- Lines 101-112: the chain turns the settled value of runTaskWithRetry
into the record written to the result slot; a thrown value is caught and
normalized into a captured record. -/
def chainOutcome {α : Type} : RetryResult α → Outcome α
  | .returned o => o
  | .thrown e => .captured (normalizeError e)

/-- An outcome the retry executor can settle with for this task
behaviour under some abort instant and some start instant. -/
def PossibleOutcome {α : Type} (tb : TaskBehavior α) (retries : Int) (r : Outcome α) : Prop :=
  ∃ abortTime t0 rr,
    (runTaskWithRetry tb retries abortTime t0).outcome = some rr ∧ r = chainOutcome rr

/-- Small-step relation between queue states: either the caller invokes
cancelAll (line 136-140, abort is one-way), or one in-flight chain
settles and runs its continuation. The abort instant a settling task may
have observed must be none while the run has never been cancelled. -/
inductive QStep {α : Type} (retries : Int) : QState α → QState α → Prop
  | cancel (s : QState α) : QStep retries s { s with aborted := true }
  | finish (s : QState α) (i : Nat) (tb : TaskBehavior α) (rr : RetryResult α)
      (abortTime : Option Nat) (t0 : Nat)
      (hmem : i ∈ s.inFlight)
      (htb : s.tasks[i]? = some tb)
      (habort : s.aborted = false → abortTime = none)
      (hout : (runTaskWithRetry tb retries abortTime t0).outcome = some rr) :
      QStep retries s (finishStep s i (chainOutcome rr))

/-- The states a run(tasks) call with the given concurrency can be in,
over every completion order and cancellation schedule. -/
def QReachable {α : Type} (retries : Int) (tasks : List (TaskBehavior α)) (C : Nat)
    (s : QState α) : Prop :=
  Relation.ReflTransGen (QStep retries) (initState tasks C) s

/-- Concrete task for witnesses: fails twice, then succeeds with 42. -/
def tb3w : TaskBehavior Nat :=
  { result := fun i => if i < 2 then .error (.strVal "boom") else .ok 42
    dur := fun _ => 7 }

/-- Concrete task for witnesses: fails on every attempt with an Error. -/
def tb4w : TaskBehavior Nat :=
  { result := fun _ => .error (.errObj "always fails"), dur := fun _ => 5 }

/-- Concrete task: fails immediately, each attempt takes 10ms. -/
def tb5w : TaskBehavior Nat :=
  { result := fun _ => .error (.strVal "boom"), dur := fun _ => 10 }

/-- Concrete task that always succeeds at once with 7. -/
def tbOk : TaskBehavior Nat := { result := fun _ => .ok 7, dur := fun _ => 0 }

/-- The queue instance produced by constructing with concurrency 2 and
retryAttempts 3. -/
def q2w : AsyncQueue :=
  { maxAtSameTime := 2, retryAttempts := 3, abortController := none
    runningCount := 0, nextTaskIndex := 0, finishedCount := 0 }

/-- Final state of a one-task run at concurrency 1 whose single task
succeeds with 7: used to witness the ordered-results theorem. -/
def s1w : QState Nat := finishStep (initState [tbOk] 1) 0 (chainOutcome (.returned (.success 7)))

/-- Two-task run at concurrency 1 for the cancellation-message analysis:
the first task fails its first attempt and then observes cancellation,
the second is never claimed. -/
def tasks8 : List (TaskBehavior Nat) := [tb5w, tbOk]

/-- State of the tasks8 run right after cancelAll fires. -/
def s8a : QState Nat := { initState tasks8 1 with aborted := true }

/-- State of the tasks8 run after the in-flight chain observes the
cancellation and its thrown error is caught, which completes the run. -/
def s8b : QState Nat := finishStep s8a 0 (chainOutcome (.thrown (.errObj "Task cancelled")))

/-- The result array the cancelled tasks8 run resolves with. -/
def res8 : List (Option (Outcome Nat)) :=
  [some (.captured (.errObj "Task cancelled")), some (.captured (.errObj cancelMessage))]

/-- Invariant tying a queue state of a run(tasks) call at concurrency C
to its bookkeeping: the counters match the ghost in-flight list, at most
C indices are claimed-but-unfinished, every claimed-and-finished slot
holds an outcome the retry executor can produce for its own task, every
unclaimed slot is still null while the run is unresolved, and a
resolved value is complete, of the right length, and slot i comes from
task i or is the cancellation filler. -/
structure QInv {α : Type} (retries : Int) (tasks : List (TaskBehavior α)) (C : Nat)
    (s : QState α) : Prop where
  tasksEq : s.tasks = tasks
  resLen : s.results.length = tasks.length
  runEq : s.runningCount = s.inFlight.length
  runLe : s.runningCount ≤ C
  nextLe : s.nextTaskIndex ≤ tasks.length
  flightLt : ∀ i ∈ s.inFlight, i < s.nextTaskIndex
  flightNodup : s.inFlight.Nodup
  flightUnwritten : ∀ i ∈ s.inFlight, s.results[i]? = some none
  unclaimedUnwritten : ∀ i, s.resolvedWith = none → s.nextTaskIndex ≤ i →
    i < tasks.length → s.results[i]? = some none
  claimedWritten : ∀ i, i < s.nextTaskIndex → i ∉ s.inFlight →
    ∃ r tb, s.results[i]? = some (some r) ∧ tasks[i]? = some tb ∧
      PossibleOutcome tb retries r
  resolvedIdle : ∀ res, s.resolvedWith = some res → s.inFlight = [] ∧ s.runningCount = 0
  resolvedOk : ∀ res, s.resolvedWith = some res → res.length = tasks.length ∧
    ∀ i, i < tasks.length →
      ∃ r tb, res[i]? = some (some r) ∧ tasks[i]? = some tb ∧
        (PossibleOutcome tb retries r ∨ r = .captured (.errObj cancelMessage))

lemma retryLoop_succ_aux {α : Type} (tb : TaskBehavior α) (retries : Int)
    (e : Nat → JSVal) (v : α) :
    ∀ (m a fuel t : Nat) (err : JSVal),
      (∀ i, i < m → tb.result (a + i) = .error (e (a + i))) →
      tb.result (a + m) = .ok v →
      (a : Int) + m ≤ retries →
      m + 1 ≤ fuel →
      retryLoop tb retries none fuel a t err =
        { outcome := some (.returned (.success v))
          invocations := m + 1
          endTime := t + backoffTotal tb a m + tb.dur (a + m) } := by
  intro m
  induction m with
  | zero =>
    intro a fuel t err hfail hsucc hle hfuel
    obtain ⟨f, rfl⟩ : ∃ f, fuel = f + 1 := ⟨fuel - 1, by omega⟩
    have ha : (a : Int) ≤ retries := by push_cast at hle; omega
    have hs : tb.result a = .ok v := by simpa using hsucc
    simp [retryLoop, if_pos ha, abortedAt, hs, backoffTotal]
  | succ m ih =>
    intro a fuel t err hfail hsucc hle hfuel
    obtain ⟨f, rfl⟩ : ∃ f, fuel = f + 1 := ⟨fuel - 1, by omega⟩
    have ha : (a : Int) ≤ retries := by push_cast at hle; omega
    have halt : (a : Int) < retries := by push_cast at hle; omega
    have hfa : tb.result a = .error (e a) := by simpa using hfail 0 (by omega)
    have hshift : a + 1 + m = a + (m + 1) := by omega
    have ihapp := ih (a + 1) f (t + tb.dur a + 100 * (a + 1)) (e a)
      (fun i hi => by
        have := hfail (i + 1) (by omega)
        simpa [show a + (i + 1) = a + 1 + i from by omega] using this)
      (by rw [hshift]; exact hsucc)
      (by push_cast; omega)
      (by omega)
    simp [retryLoop, if_pos ha, abortedAt, hfa, halt, abortDuringWait, ihapp,
      backoffTotal, hshift]
    omega

lemma retryLoop_allfail_aux {α : Type} (tb : TaskBehavior α) (retries : Int)
    (e : Nat → JSVal) (hfail : ∀ i, tb.result i = .error (e i)) :
    ∀ (fuel a t : Nat) (err : JSVal),
      (a : Int) + fuel = retries + 1 →
      1 ≤ fuel →
      (retryLoop tb retries none fuel a t err).outcome
          = some (.returned (.captured (normalizeError (e retries.toNat)))) ∧
      (retryLoop tb retries none fuel a t err).invocations = fuel := by
  intro fuel
  induction fuel with
  | zero => intro a t err hsum h1; omega
  | succ f ihf =>
    intro a t err hsum h1
    have ha : (a : Int) ≤ retries := by push_cast at hsum; omega
    have h0 : (0 : Int) ≤ retries := by push_cast at hsum; omega
    rcases Nat.eq_zero_or_pos f with hf | hf
    · subst hf
      have hanat : a = retries.toNat := by push_cast at hsum; omega
      have hnlt : ¬ (a : Int) < retries := by push_cast at hsum; omega
      subst hanat
      simp [retryLoop, if_pos ha, abortedAt, hfail, hnlt, h0]
    · have hlt : (a : Int) < retries := by push_cast at hsum; omega
      have ih := ihf (a + 1) (t + tb.dur a + 100 * (a + 1)) (e a)
        (by push_cast at hsum ⊢; omega) (by omega)
      simp [retryLoop, if_pos ha, abortedAt, hfail, hlt, abortDuringWait, ih.1, ih.2]

/-- Claim C3: a task that fails exactly K times and then succeeds, with
K below the retry budget and no cancellation, settles with the success
record of attempt K, invokes the task exactly K + 1 times, and its
settle time shows backoff waits only after the K failing attempts,
none after the success. -/
theorem retry_then_success {α : Type} (tb : TaskBehavior α) (retries : Int)
    (e : Nat → JSVal) (v : α) (K t0 : Nat)
    (hfail : ∀ i, i < K → tb.result i = .error (e i))
    (hsucc : tb.result K = .ok v)
    (hK : (K : Int) < retries) :
    runTaskWithRetry tb retries none t0 =
      { outcome := some (.returned (.success v))
        invocations := K + 1
        endTime := t0 + backoffTotal tb 0 K + tb.dur K } := by
  unfold runTaskWithRetry
  have h := retryLoop_succ_aux tb retries e v K 0 ((retries + 1).toNat) t0 .null
    (by intro i hi; simpa using hfail i hi)
    (by simpa using hsucc)
    (by push_cast; omega)
    (by omega)
  simpa using h

/-- Claim C3, witness: concrete run of a task failing twice before
succeeding with 42, at retry budget 3. -/
theorem retry_then_success_witness :
    runTaskWithRetry tb3w 3 none 0 =
      { outcome := some (.returned (.success 42))
        invocations := 2 + 1
        endTime := 0 + backoffTotal tb3w 0 2 + tb3w.dur 2 } :=
  retry_then_success tb3w 3 (fun _ => .strVal "boom") 42 2 0
    (by intro i hi; interval_cases i <;> rfl) rfl (by norm_num)

/-- Claim C4: a task that fails on every attempt, with retryAttempts 3
and no cancellation, is invoked exactly 4 times and settles with a
captured record whose error is the failure of the last attempt passed
through normalizeError, which keeps an Error value unchanged. -/
theorem retry_exhaustion {α : Type} (tb : TaskBehavior α) (e : Nat → JSVal) (t0 : Nat)
    (hfail : ∀ i, tb.result i = .error (e i)) :
    (runTaskWithRetry tb 3 none t0).outcome
        = some (.returned (.captured (normalizeError (e 3)))) ∧
    (runTaskWithRetry tb 3 none t0).invocations = 4 ∧
    ∀ m, e 3 = .errObj m → normalizeError (e 3) = e 3 := by
  have h := retryLoop_allfail_aux tb 3 e hfail 4 0 t0 .null (by norm_num) (by norm_num)
  refine ⟨?_, ?_, ?_⟩
  · simpa [runTaskWithRetry] using h.1
  · simpa [runTaskWithRetry] using h.2
  · intro m hm; rw [hm]; rfl

/-- Claim C4, witness: concrete always-failing task at retry budget 3. -/
theorem retry_exhaustion_witness :
    (runTaskWithRetry tb4w 3 none 0).outcome
        = some (.returned (.captured (normalizeError (.errObj "always fails")))) ∧
    (runTaskWithRetry tb4w 3 none 0).invocations = 4 ∧
    normalizeError (.errObj "always fails") = .errObj "always fails" :=
  ⟨(retry_exhaustion tb4w (fun _ => .errObj "always fails") 0 (fun _ => rfl)).1,
   (retry_exhaustion tb4w (fun _ => .errObj "always fails") 0 (fun _ => rfl)).2.1,
   (retry_exhaustion tb4w (fun _ => .errObj "always fails") 0 (fun _ => rfl)).2.2
     "always fails" rfl⟩

/-- Claim C5: the source does not behave as claimed. When a task fails
at attempt 0 and the abort signal fires strictly inside the following
backoff window, the abort listener (line 28) only clears the timer and
never resolves the wait promise, so runTaskWithRetry never settles: the
trace has outcome none after exactly one invocation, instead of
settling with the cancellation outcome on the next loop check. -/
theorem backoff_abort_hang :
    (runTaskWithRetry tb5w 1 (some 50) 0).outcome = none ∧
    (runTaskWithRetry tb5w 1 (some 50) 0).invocations = 1 := by
  constructor <;> rfl

/-- Claim C6: construction fails exactly when the concurrency argument
is not an integer of at least one. -/
theorem construction_validation (c : Rat) (r : Int) :
    (∃ msg, mkAsyncQueue c r = .error msg) ↔ ¬ ∃ n : ℤ, 1 ≤ n ∧ c = (n : Rat) := by
  unfold mkAsyncQueue
  by_cases h : c < 1 ∨ jsNumberIsInteger c = false
  · simp only [if_pos h]
    constructor
    · rintro - ⟨n, hn1, rfl⟩
      rcases h with h | h
      · have h1 : (1 : ℚ) ≤ (n : ℚ) := by exact_mod_cast hn1
        exact absurd h (not_lt.mpr h1)
      · simp [jsNumberIsInteger, Rat.den_intCast] at h
    · intro _
      exact ⟨_, rfl⟩
  · simp only [if_neg h]
    push_neg at h
    obtain ⟨h1, h2⟩ := h
    constructor
    · rintro ⟨msg, hmsg⟩
      cases hmsg
    · intro hne
      exfalso
      apply hne
      have hden : c.den = 1 := by
        have := h2
        simp [jsNumberIsInteger] at this
        exact this
      refine ⟨c.num, ?_, (Rat.coe_int_num_of_den_eq_one hden).symm⟩
      have hc1 : (1 : ℚ) ≤ (c.num : ℚ) := by
        rw [Rat.coe_int_num_of_den_eq_one hden]
        exact h1
      exact_mod_cast hc1

/-- Claim C9: cancelAll on an instance whose abortController is still
null, as left by the constructor, returns the instance unchanged. -/
theorem cancelAll_before_run (c : Rat) (r : Int) (q : AsyncQueue)
    (h : mkAsyncQueue c r = .ok q) : cancelAll q = q := by
  unfold mkAsyncQueue at h
  split at h
  · cases h
  · cases h
    rfl

/-- Claim C9, witness: the freshly constructed concurrency-2 queue. -/
theorem cancelAll_before_run_witness : cancelAll q2w = q2w :=
  cancelAll_before_run 2 3 q2w (by norm_num [mkAsyncQueue, jsNumberIsInteger, q2w])

/-- Claim C10: the constructor accepts a negative retryAttempts, and a
task then run with it is never invoked and settles at once with a
captured record whose error is the normalization of the initial null,
an Error with message null. -/
theorem negative_retry_attempts {α : Type} (tb : TaskBehavior α) (r : Int)
    (abortTime : Option Nat) (t0 : Nat) (hr : r < 0) :
    (∃ q, mkAsyncQueue 2 r = .ok q) ∧
    runTaskWithRetry tb r abortTime t0 =
      { outcome := some (.returned (.captured (.errObj "null")))
        invocations := 0
        endTime := t0 } := by
  constructor
  · unfold mkAsyncQueue
    have hcond : ¬ ((2 : ℚ) < 1 ∨ jsNumberIsInteger 2 = false) := by
      push_neg
      exact ⟨by norm_num, by norm_num [jsNumberIsInteger]⟩
    rw [if_neg hcond]
    exact ⟨_, rfl⟩
  · unfold runTaskWithRetry
    have h0 : (r + 1).toNat = 0 := by omega
    rw [h0]
    rfl

/-- Claim C10, witness: retryAttempts set to minus one. -/
theorem negative_retry_attempts_witness :
    (∃ q, mkAsyncQueue 2 (-1) = .ok q) ∧
    runTaskWithRetry tbOk (-1) none 0 =
      { outcome := some (.returned (.captured (.errObj "null")))
        invocations := 0
        endTime := 0 } :=
  negative_retry_attempts tbOk (-1) none 0 (by norm_num)

lemma processNext_claim {α : Type} (s : QState α)
    (h1 : s.nextTaskIndex < s.tasks.length) (h2 : s.aborted = false) :
    processNext s =
      { s with
        nextTaskIndex := s.nextTaskIndex + 1
        runningCount := s.runningCount + 1
        inFlight := s.inFlight ++ [s.nextTaskIndex] } := by
  unfold processNext
  rw [if_neg]
  push_neg
  exact ⟨by omega, by simp [h2]⟩

lemma processNext_exit {α : Type} (s : QState α)
    (h : s.tasks.length ≤ s.nextTaskIndex ∨ s.aborted = true) :
    processNext s = checkCompletion s := by
  unfold processNext
  rw [if_pos]
  rcases h with h | h
  · exact Or.inl h
  · exact Or.inr (by simp [h])

lemma checkCompletion_busy {α : Type} (s : QState α) (h : s.runningCount ≠ 0) :
    checkCompletion s = s := by
  unfold checkCompletion
  rw [if_neg h]

lemma checkCompletion_done {α : Type} (s : QState α) (h : s.runningCount = 0)
    (hres : s.resolvedWith = none) :
    checkCompletion s =
      { s with
        results := if s.aborted then fillCancelled s.results else s.results
        resolvedWith := some (if s.aborted then fillCancelled s.results else s.results) } := by
  simp only [checkCompletion, if_pos h, hres]

lemma fillCancelled_length {α : Type} (rs : List (Option (Outcome α))) :
    (fillCancelled rs).length = rs.length := by
  simp [fillCancelled]

lemma fillCancelled_getElem_some {α : Type} (rs : List (Option (Outcome α))) (j : Nat)
    (r : Outcome α) (h : rs[j]? = some (some r)) : (fillCancelled rs)[j]? = some (some r) := by
  simp [fillCancelled, List.getElem?_map, h]

lemma fillCancelled_getElem_none {α : Type} (rs : List (Option (Outcome α))) (j : Nat)
    (h : rs[j]? = some none) :
    (fillCancelled rs)[j]? = some (some (.captured (.errObj cancelMessage))) := by
  simp [fillCancelled, List.getElem?_map, h]

lemma startChains_fields {α : Type} :
    ∀ (k : Nat) (s : QState α),
      s.aborted = false → s.resolvedWith = none →
      s.nextTaskIndex + k ≤ s.tasks.length →
      startChains s k =
        { s with
          nextTaskIndex := s.nextTaskIndex + k
          runningCount := s.runningCount + k
          inFlight := s.inFlight ++ List.range' s.nextTaskIndex k } := by
  intro k
  induction k with
  | zero =>
    intro s _ _ _
    simp [startChains]
  | succ k ih =>
    intro s hab hres hle
    rw [startChains, processNext_claim s (by omega) hab]
    have h2 := ih
      { s with
        nextTaskIndex := s.nextTaskIndex + 1
        runningCount := s.runningCount + 1
        inFlight := s.inFlight ++ [s.nextTaskIndex] }
      hab hres (by simp; omega)
    rw [h2]
    simp [List.range'_succ, List.append_assoc]
    omega

lemma qinv_init {α : Type} (retries : Int) (tasks : List (TaskBehavior α)) (C : Nat) :
    QInv retries tasks C (initState tasks C) := by
  unfold initState
  by_cases h0 : tasks.length = 0
  · rw [if_pos h0]
    refine ⟨rfl, by simp, rfl, Nat.zero_le _, Nat.zero_le _, ?_, List.nodup_nil, ?_, ?_, ?_, ?_, ?_⟩
    · intro i hi; simp at hi
    · intro i hi; simp at hi
    · intro i hres; cases hres
    · intro i hi; simp at hi
    · intro res h
      exact ⟨rfl, rfl⟩
    · intro res h
      injection h with h
      subst h
      refine ⟨by simpa using h0.symm, ?_⟩
      intro i hi; omega
  · rw [if_neg h0]
    rw [startChains_fields (min C tasks.length) _ rfl rfl (by simp)]
    refine ⟨rfl, by simp, ?_, ?_, ?_, ?_, ?_, ?_, ?_, ?_, ?_, ?_⟩
    · simp
    · simp
    · simp
    · intro i hi
      simp only [List.nil_append, List.mem_range'_1] at hi
      simp
      omega
    · simp [List.nodup_range']
    · intro i hi
      simp only [List.nil_append, List.mem_range'_1] at hi
      have hilen : i < tasks.length := by omega
      simp [List.getElem?_replicate, hilen]
    · intro i _ h1 h2
      simp only at h1
      simp [List.getElem?_replicate, h2]
    · intro i h1 h2
      exfalso
      apply h2
      simp only [List.nil_append, List.mem_range'_1]
      simp only at h1
      omega
    · intro res h
      cases h
    · intro res h
      cases h

lemma qinv_processNext {α : Type} {retries : Int} {tasks : List (TaskBehavior α)} {C : Nat}
    {s : QState α} (inv : QInv retries tasks C s)
    (hres : s.resolvedWith = none)
    (hC : s.nextTaskIndex < s.tasks.length → s.aborted = false → s.runningCount < C) :
    QInv retries tasks C (processNext s) := by
  by_cases hg : s.tasks.length ≤ s.nextTaskIndex ∨ s.aborted = true
  · rw [processNext_exit s hg]
    by_cases hrc : s.runningCount = 0
    · rw [checkCompletion_done s hrc hres]
      have hfl : s.inFlight = [] := by
        have h := inv.runEq
        rw [hrc] at h
        exact List.length_eq_zero.mp h.symm
      have hlen : (if s.aborted then fillCancelled s.results else s.results).length
          = tasks.length := by
        by_cases hab : s.aborted <;> simp [hab, fillCancelled_length, inv.resLen]
      refine ⟨inv.tasksEq, hlen, inv.runEq, inv.runLe, inv.nextLe, inv.flightLt,
        inv.flightNodup, ?_, ?_, ?_, ?_, ?_⟩
      · intro j hj
        rw [hfl] at hj
        cases hj
      · intro j habs
        cases habs
      · intro j hj hnot
        obtain ⟨r2, tb2, e1, e2, e3⟩ := inv.claimedWritten j hj hnot
        refine ⟨r2, tb2, ?_, e2, e3⟩
        by_cases hab : s.aborted <;> simp [hab, fillCancelled_getElem_some _ _ _ e1, e1]
      · intro res h
        exact ⟨hfl, hrc⟩
      · intro res h
        injection h with h
        subst h
        refine ⟨hlen, ?_⟩
        intro j hj
        have htbj : tasks[j]? = some tasks[j] := List.getElem?_eq_getElem hj
        by_cases hclaim : j < s.nextTaskIndex
        · obtain ⟨r2, tb2, e1, e2, e3⟩ := inv.claimedWritten j hclaim (by simp [hfl])
          refine ⟨r2, tb2, ?_, e2, Or.inl e3⟩
          by_cases hab : s.aborted <;> simp [hab, fillCancelled_getElem_some _ _ _ e1, e1]
        · rcases hg with hlen2 | habt
          · rw [inv.tasksEq] at hlen2
            omega
          · have e1 := inv.unclaimedUnwritten j hres (by omega) hj
            refine ⟨.captured (.errObj cancelMessage), tasks[j], ?_, htbj, Or.inr rfl⟩
            simp [habt, fillCancelled_getElem_none _ _ e1]
    · rw [checkCompletion_busy s hrc]
      exact inv
  · push_neg at hg
    obtain ⟨h1, h2⟩ := hg
    have hab : s.aborted = false := by simpa using h2
    have h1' : s.nextTaskIndex < s.tasks.length := by omega
    have h1t : s.nextTaskIndex < tasks.length := by rw [inv.tasksEq] at h1'; exact h1'
    rw [processNext_claim s h1' hab]
    have hnotin : s.nextTaskIndex ∉ s.inFlight :=
      fun h => absurd (inv.flightLt _ h) (lt_irrefl _)
    refine ⟨inv.tasksEq, inv.resLen, ?_, ?_, ?_, ?_, ?_, ?_, ?_, ?_, ?_, ?_⟩
    · simp [inv.runEq]
    · have := hC h1' hab
      dsimp only
      omega
    · dsimp only
      omega
    · intro j hj
      dsimp only at hj ⊢
      rcases List.mem_append.mp hj with hj | hj
      · have := inv.flightLt j hj
        omega
      · have : j = s.nextTaskIndex := by simpa using hj
        omega
    · simp [List.nodup_append, inv.flightNodup, hnotin]
    · intro j hj
      dsimp only at hj ⊢
      rcases List.mem_append.mp hj with hj | hj
      · exact inv.flightUnwritten j hj
      · have hje : j = s.nextTaskIndex := by simpa using hj
        subst hje
        exact inv.unclaimedUnwritten s.nextTaskIndex hres le_rfl h1t
    · intro j hres2 hj1 hj2
      dsimp only at hj1 ⊢
      exact inv.unclaimedUnwritten j hres (by omega) hj2
    · intro j hj hnot
      dsimp only at hj hnot ⊢
      have hji : j ≠ s.nextTaskIndex := by
        intro h
        exact hnot (List.mem_append.mpr (Or.inr (by simp [h])))
      have hjfl : j ∉ s.inFlight :=
        fun h => hnot (List.mem_append.mpr (Or.inl h))
      exact inv.claimedWritten j (by omega) hjfl
    · intro res h
      rw [hres] at h
      cases h
    · intro res h
      rw [hres] at h
      cases h

lemma qinv_write {α : Type} {retries : Int} {tasks : List (TaskBehavior α)} {C : Nat}
    {s : QState α} (inv : QInv retries tasks C s) (i : Nat) (tb : TaskBehavior α)
    (r : Outcome α) (hmem : i ∈ s.inFlight) (htb : s.tasks[i]? = some tb)
    (hPO : PossibleOutcome tb retries r) (hres : s.resolvedWith = none) :
    QInv retries tasks C
      { s with
        results := s.results.set i (some r)
        runningCount := s.runningCount - 1
        finishedCount := s.finishedCount + 1
        inFlight := s.inFlight.erase i } := by
  have hilt : i < s.nextTaskIndex := inv.flightLt i hmem
  have hiltn : i < tasks.length := lt_of_lt_of_le hilt inv.nextLe
  have hireslen : i < s.results.length := by rw [inv.resLen]; exact hiltn
  refine ⟨inv.tasksEq, ?_, ?_, ?_, inv.nextLe, ?_, inv.flightNodup.erase i, ?_, ?_, ?_, ?_, ?_⟩
  · simp [inv.resLen]
  · simp [List.length_erase_of_mem hmem, inv.runEq]
  · dsimp only
    have := inv.runLe
    omega
  · intro j hj
    exact inv.flightLt j (List.mem_of_mem_erase hj)
  · intro j hj
    dsimp only at hj ⊢
    obtain ⟨hne, hjm⟩ := (inv.flightNodup.mem_erase_iff).mp hj
    rw [List.getElem?_set_ne (Ne.symm hne)]
    exact inv.flightUnwritten j hjm
  · intro j hres2 hj1 hj2
    dsimp only at hj1 ⊢
    have hne : i ≠ j := by omega
    rw [List.getElem?_set_ne hne]
    exact inv.unclaimedUnwritten j hres hj1 hj2
  · intro j hj hnot
    dsimp only at hj hnot ⊢
    by_cases hji : j = i
    · subst hji
      refine ⟨r, tb, ?_, ?_, hPO⟩
      · rw [List.getElem?_set_eq_of_lt _ hireslen]
      · rw [← inv.tasksEq]
        exact htb
    · have hjfl : j ∉ s.inFlight := by
        intro hjm
        exact hnot (inv.flightNodup.mem_erase_iff.mpr ⟨hji, hjm⟩)
      obtain ⟨r2, tb2, e1, e2, e3⟩ := inv.claimedWritten j hj hjfl
      refine ⟨r2, tb2, ?_, e2, e3⟩
      rw [List.getElem?_set_ne (fun h => hji h.symm)]
      exact e1
  · intro res h
    dsimp only at h
    rw [hres] at h
    cases h
  · intro res h
    dsimp only at h
    rw [hres] at h
    cases h

lemma qinv_step {α : Type} {retries : Int} {tasks : List (TaskBehavior α)} {C : Nat}
    {s s2 : QState α} (inv : QInv retries tasks C s) (hstep : QStep retries s s2) :
    QInv retries tasks C s2 := by
  cases hstep with
  | cancel =>
    exact ⟨inv.tasksEq, inv.resLen, inv.runEq, inv.runLe, inv.nextLe, inv.flightLt,
      inv.flightNodup, inv.flightUnwritten, inv.unclaimedUnwritten, inv.claimedWritten,
      inv.resolvedIdle, inv.resolvedOk⟩
  | finish i tb rr abortTime t0 hmem htb habort hout =>
    have hres : s.resolvedWith = none := by
      cases hres2 : s.resolvedWith with
      | none => rfl
      | some res =>
        have h := (inv.resolvedIdle res hres2).1
        rw [h] at hmem
        cases hmem
    have hrc1 : 1 ≤ s.runningCount := by
      rw [inv.runEq]
      exact List.length_pos.mpr (List.ne_nil_of_mem hmem)
    have hw := qinv_write inv i tb (chainOutcome rr) hmem htb ⟨abortTime, t0, rr, hout, rfl⟩ hres
    unfold finishStep
    refine qinv_processNext hw ?_ ?_
    · exact hres
    · intro _ _
      dsimp only
      have := inv.runLe
      omega

lemma qinv_of_reachable {α : Type} {retries : Int} {tasks : List (TaskBehavior α)}
    {C : Nat} {s : QState α} (h : QReachable retries tasks C s) :
    QInv retries tasks C s := by
  induction h with
  | refl => exact qinv_init retries tasks C
  | tail hsteps hstep ih => exact qinv_step ih hstep

/-- Claim C1: whenever a run resolves, the delivered array has the same
length as the task list, no slot is left null, and slot i holds either
an outcome the retry executor can produce for task i itself or the
fixed cancellation filler; every slot is a success or captured record
by the type of Outcome. This holds for every reachable state, hence
for every completion order. -/
theorem resolved_results_match_tasks {α : Type} (retries : Int)
    (tasks : List (TaskBehavior α)) (C : Nat) (s : QState α)
    (res : List (Option (Outcome α)))
    (hreach : QReachable retries tasks C s)
    (hres : s.resolvedWith = some res) :
    res.length = tasks.length ∧
    ∀ i, i < tasks.length →
      ∃ r tb, res[i]? = some (some r) ∧ tasks[i]? = some tb ∧
        (PossibleOutcome tb retries r ∨ r = .captured (.errObj cancelMessage)) :=
  (qinv_of_reachable hreach).resolvedOk res hres

lemma s1w_reachable : QReachable 3 [tbOk] 1 s1w :=
  Relation.ReflTransGen.single
    (QStep.finish (initState [tbOk] 1) 0 tbOk (.returned (.success 7)) none 0
      (by decide) rfl (fun _ => rfl) rfl)

/-- Claim C1, witness: a one-task run that resolves with its success. -/
theorem resolved_results_match_tasks_witness :
    ([some (Outcome.success 7)] : List (Option (Outcome Nat))).length = [tbOk].length ∧
    ∃ r tb, ([some (Outcome.success 7)] : List (Option (Outcome Nat)))[0]? = some (some r) ∧
      [tbOk][0]? = some tb ∧
      (PossibleOutcome tb 3 r ∨ r = .captured (.errObj cancelMessage)) :=
  ⟨(resolved_results_match_tasks 3 [tbOk] 1 s1w [some (.success 7)]
      s1w_reachable rfl).1,
   (resolved_results_match_tasks 3 [tbOk] 1 s1w [some (.success 7)]
      s1w_reachable rfl).2 0 (by decide)⟩

lemma init_runningCount {α : Type} (tasks : List (TaskBehavior α)) (C : Nat) :
    (initState tasks C).runningCount = min C tasks.length := by
  unfold initState
  by_cases h0 : tasks.length = 0
  · rw [if_pos h0]
    simp [h0]
  · rw [if_neg h0]
    rw [startChains_fields (min C tasks.length) _ rfl rfl (by simp)]
    simp

/-- Claim C2: the run starts exactly min(concurrency, tasks.length)
dispatch chains, and in every reachable state of every run the number
of claimed-but-unfinished tasks, both as the runningCount counter and
as the ghost in-flight list, never exceeds the concurrency. -/
theorem concurrency_ceiling {α : Type} (retries : Int)
    (tasks : List (TaskBehavior α)) (C : Nat) :
    (initState tasks C).runningCount = min C tasks.length ∧
    ∀ s : QState α, QReachable retries tasks C s →
      s.runningCount ≤ C ∧ s.inFlight.length ≤ C := by
  refine ⟨init_runningCount tasks C, ?_⟩
  intro s hreach
  have inv := qinv_of_reachable hreach
  refine ⟨inv.runLe, ?_⟩
  rw [← inv.runEq]
  exact inv.runLe

/-- Claim C2, witness: a one-task run at concurrency 2, evaluated at
the initial state. -/
theorem concurrency_ceiling_witness :
    (initState [tbOk] 2).runningCount = min 2 [tbOk].length ∧
    ((initState [tbOk] 2).runningCount ≤ 2 ∧ (initState [tbOk] 2).inFlight.length ≤ 2) :=
  ⟨(concurrency_ceiling 3 [tbOk] 2).1,
   (concurrency_ceiling 3 [tbOk] 2).2 (initState [tbOk] 2) Relation.ReflTransGen.refl⟩

/-- Claim C7: a run on the empty task list is already resolved with the
empty array by the synchronous part of run, and in every later state
nothing was ever claimed or finished, so no task function is ever
invoked. -/
theorem empty_run {α : Type} (retries : Int) (C : Nat) :
    (initState ([] : List (TaskBehavior α)) C).resolvedWith = some [] ∧
    ∀ s : QState α, QReachable retries [] C s →
      s.resolvedWith = some [] ∧ s.nextTaskIndex = 0 ∧ s.finishedCount = 0 := by
  constructor
  · rfl
  · have key : ∀ s : QState α, QReachable retries [] C s →
        s.resolvedWith = some [] ∧ s.nextTaskIndex = 0 ∧ s.finishedCount = 0 ∧
        s.inFlight = [] := by
      intro s hreach
      induction hreach with
      | refl => exact ⟨rfl, rfl, rfl, rfl⟩
      | tail hsteps hstep ih =>
        cases hstep with
        | cancel => exact ⟨ih.1, ih.2.1, ih.2.2.1, ih.2.2.2⟩
        | finish i tb rr abortTime t0 hmem htb habort hout =>
          rw [ih.2.2.2] at hmem
          cases hmem
    intro s hreach
    exact ⟨(key s hreach).1, (key s hreach).2.1, (key s hreach).2.2.1⟩

/-- Claim C7, witness: the empty run at concurrency 2, evaluated at its
initial state. -/
theorem empty_run_witness :
    (initState ([] : List (TaskBehavior Nat)) 2).resolvedWith = some [] ∧
    ((initState ([] : List (TaskBehavior Nat)) 2).resolvedWith = some [] ∧
     (initState ([] : List (TaskBehavior Nat)) 2).nextTaskIndex = 0 ∧
     (initState ([] : List (TaskBehavior Nat)) 2).finishedCount = 0) :=
  ⟨(empty_run 3 2).1, (empty_run 3 2).2 _ Relation.ReflTransGen.refl⟩

lemma retryLoop_thrown {α : Type} (tb : TaskBehavior α) (retries : Int)
    (abortTime : Option Nat) :
    ∀ (fuel a t : Nat) (err e : JSVal),
      (retryLoop tb retries abortTime fuel a t err).outcome = some (.thrown e) →
      e = .errObj "Task cancelled" := by
  intro fuel
  induction fuel with
  | zero =>
    intro a t err e h
    simp [retryLoop] at h
  | succ f ih =>
    intro a t err e h
    simp only [retryLoop] at h
    by_cases h1 : (a : Int) ≤ retries
    · by_cases h2 : abortedAt abortTime t = true
      · simp [h1, h2] at h
        exact h.symm
      · cases hr : tb.result a with
        | ok v => simp [h1, h2, hr] at h
        | error e2 =>
          simp [h1, h2, hr] at h
          split_ifs at h with hc1 hc2
          all_goals exact ih _ _ _ _ h
    · simp [h1] at h

lemma runTaskWithRetry_thrown {α : Type} (tb : TaskBehavior α) (retries : Int)
    (abortTime : Option Nat) (t0 : Nat) (e : JSVal)
    (h : (runTaskWithRetry tb retries abortTime t0).outcome = some (.thrown e)) :
    e = .errObj "Task cancelled" :=
  retryLoop_thrown tb retries abortTime _ 0 t0 .null e h

/-- Claim C8, amended: every slot of a resolved run that does not come
from the task settling with its own returned outcome carries one of two
fixed cancellation messages: the retry loop that observes cancellation
throws the fixed Error with message Task cancelled, caught and surfaced
as a captured record, while a slot still unset at completion is filled
with a captured record carrying the fixed cancelAll message. Both are
captured records with fixed, recognizable messages, but the two paths
use two different messages, not one. -/
theorem cancellation_fixed_messages {α : Type} (retries : Int)
    (tasks : List (TaskBehavior α)) (C : Nat) (s : QState α)
    (res : List (Option (Outcome α)))
    (hreach : QReachable retries tasks C s)
    (hres : s.resolvedWith = some res) :
    ∀ i, i < tasks.length →
      ∃ r tb, res[i]? = some (some r) ∧ tasks[i]? = some tb ∧
        ((∃ o abortTime t0, (runTaskWithRetry tb retries abortTime t0).outcome
            = some (.returned o) ∧ r = o)
          ∨ r = .captured (.errObj "Task cancelled")
          ∨ r = .captured (.errObj "Task cancelled via cancelAll()")) := by
  intro i hi
  obtain ⟨r, tb, e1, e2, e3⟩ := ((qinv_of_reachable hreach).resolvedOk res hres).2 i hi
  refine ⟨r, tb, e1, e2, ?_⟩
  rcases e3 with hpo | hcan
  · obtain ⟨abortTime, t0, rr, hout, hr⟩ := hpo
    cases rr with
    | returned o => exact Or.inl ⟨o, abortTime, t0, hout, hr⟩
    | thrown e =>
      have he := runTaskWithRetry_thrown tb retries abortTime t0 e hout
      subst he
      refine Or.inr (Or.inl ?_)
      rw [hr]
      rfl
  · refine Or.inr (Or.inr ?_)
    rw [hcan]
    rfl

lemma s8b_reachable : QReachable 3 tasks8 1 s8b :=
  Relation.ReflTransGen.tail
    (Relation.ReflTransGen.single (QStep.cancel (initState tasks8 1)))
    (QStep.finish s8a 0 tb5w (.thrown (.errObj "Task cancelled")) (some 5) 0
      (by decide) rfl (fun h => absurd h (by decide)) rfl)

lemma s8b_resolved : s8b.resolvedWith = some res8 := rfl

/-- Claim C8, counterexample to the claim as stated: a cancelled run in
which the task whose retry loop observed cancellation is surfaced with
message Task cancelled while the never-claimed task is surfaced with
the different message Task cancelled via cancelAll(), so no single
fixed message covers every cancellation-caused record. -/
theorem cancellation_two_messages :
    QReachable 3 tasks8 1 s8b ∧
    s8b.resolvedWith = some res8 ∧
    res8[0]? = some (some (.captured (.errObj "Task cancelled"))) ∧
    res8[1]? = some (some (.captured (.errObj "Task cancelled via cancelAll()"))) ∧
    JSVal.errObj "Task cancelled" ≠ JSVal.errObj "Task cancelled via cancelAll()" :=
  ⟨s8b_reachable, s8b_resolved, rfl, rfl, by decide⟩

/-- Claim C8, witness: slot 0 of the cancelled two-task run. -/
theorem cancellation_fixed_messages_witness :
    ∃ r tb, res8[0]? = some (some r) ∧ tasks8[0]? = some tb ∧
      ((∃ o abortTime t0, (runTaskWithRetry tb 3 abortTime t0).outcome
          = some (.returned o) ∧ r = o)
        ∨ r = .captured (.errObj "Task cancelled")
        ∨ r = .captured (.errObj "Task cancelled via cancelAll()")) :=
  cancellation_fixed_messages 3 tasks8 1 s8b res8 s8b_reachable s8b_resolved 0 (by decide)
